import Mathlib

/-!
Shallow embedding of the Redux slice in `src/lib/student-slice.ts` of the
StudentRegistry repository.

Modelling conventions:
* A TypeScript object of the `Students` interface is a structure of
  `Option` fields; `none` stands for an absent key (JS `undefined`).
* Reducers are pure state transformers.  The reducer `searchStudents`
  can throw in the source (it calls `.toLowerCase()` on a field that may
  be `undefined`), so it returns `Except Unit StudentState` here, with
  `.error ()` standing for the thrown `TypeError`.
* `uuidv4()` is nondeterministic; the generated string is passed to
  `addNewStudent` as an explicit argument (an injected id generator).
* JS `toLowerCase` is modelled codepoint by codepoint via `Char.toLower`.
* The seed `dummyData` lives in `utils/data/dummy-data`, outside the
  store module; the initial state is parameterised by it.
-/

/-- The `Students` interface of `student-slice.ts`: every field optional.
`contactNumber` is a JS number; its value plays no role in any reducer. -/
structure Students where
  _id : Option String := none
  firstName : Option String := none
  middleName : Option String := none
  lastName : Option String := none
  email : Option String := none
  contactNumber : Option Int := none
  gender : Option String := none
  collegeName : Option String := none
  department : Option String := none
  hobbies : Option String := none
  dob : Option String := none
deriving DecidableEq

/-- The `StudentState` interface: the two list views plus the selection. -/
structure StudentState where
  filteredstudents : List Students
  allstudents : List Students
  currentStudent : Option Students
deriving DecidableEq

/-- `initialState`: both views start as the seed data, no selection. -/
def initialState (dummyData : List Students) : StudentState :=
  { filteredstudents := dummyData
    allstudents := dummyData
    currentStudent := none }

/-- JS `s.toLowerCase()`, applied codepoint by codepoint. -/
def jsToLower (s : String) : String :=
  ⟨s.data.map Char.toLower⟩

/-- `needle` occurs in `hay` as a contiguous run. -/
def listInfixOf (needle : List Char) : List Char → Bool
  | [] => needle.isEmpty
  | c :: rest => needle.isPrefixOf (c :: rest) || listInfixOf needle rest

/-- JS `hay.includes(needle)`: `needle` occurs in `hay` as a contiguous
substring. -/
def jsIncludes (hay needle : String) : Bool :=
  listInfixOf needle.data hay.data

/-- The `[firstName, lastName, collegeName].some(field => ...)` call
in `searchStudents`, with JS short-circuit evaluation.  Each callback runs
`(student[field] as string).toLowerCase().includes(searchTerm)`: when the
field is absent the access yields `undefined` and `.toLowerCase()` throws,
modelled by `.error ()`; the exception propagates out of `some`.
`searchTerm` arrives already lowercased. -/
def someFieldIncludes (student : Students) (searchTerm : String) :
    Except Unit Bool :=
  match student.firstName with
  | none => .error ()
  | some f =>
    if jsIncludes (jsToLower f) searchTerm then .ok true
    else
      match student.lastName with
      | none => .error ()
      | some l =>
        if jsIncludes (jsToLower l) searchTerm then .ok true
        else
          match student.collegeName with
          | none => .error ()
          | some c => .ok (jsIncludes (jsToLower c) searchTerm)

/-- The `state.allstudents.filter(student => ...)` call in
`searchStudents`; an exception thrown by the callback propagates. -/
def filterStudents : List Students → String → Except Unit (List Students)
  | [], _ => .ok []
  | student :: rest, searchTerm =>
    match someFieldIncludes student searchTerm with
    | .error e => .error e
    | .ok b =>
      match filterStudents rest searchTerm with
      | .error e => .error e
      | .ok tail => .ok (if b then student :: tail else tail)

/-- Reducer `searchStudents`: lowercases the payload, filters
`allstudents`, stores the result in `filteredstudents`. -/
def searchStudents (state : StudentState) (payload : String) :
    Except Unit StudentState :=
  match filterStudents state.allstudents (jsToLower payload) with
  | .error e => .error e
  | .ok filtered => .ok { state with filteredstudents := filtered }

/-- Reducer `selectedStudent`:
`state.allstudents.find(student => student._id === studentId) ?? null`. -/
def selectedStudent (state : StudentState) (studentId : String) :
    StudentState :=
  { state with
    currentStudent :=
      state.allstudents.find? (fun student => student._id == some studentId) }

/-- Reducer `clearSelectedStudent`. -/
def clearSelectedStudent (state : StudentState) : StudentState :=
  { state with currentStudent := none }

/-- JS object spread `{ _id: v, ...payload }`: a key present on `payload`
overrides the explicit `_id`; every other field comes from `payload`. -/
def spreadWithId (v : String) (payload : Students) : Students :=
  { payload with _id := some (payload._id.getD v) }

/-- Reducer `addNewStudent`: pushes `{ _id: studentUuid, ...payload }`
onto both `allstudents` and `filteredstudents`. -/
def addNewStudent (state : StudentState) (studentUuid : String)
    (payload : Students) : StudentState :=
  { state with
    allstudents := state.allstudents ++ [spreadWithId studentUuid payload]
    filteredstudents :=
      state.filteredstudents ++ [spreadWithId studentUuid payload] }

/-- Helper `updateStudentList`: maps every record whose `_id` equals `id`
to `{ _id: id, ...updatedStudent }`, leaving the rest alone. -/
def updateStudentList (students : List Students) (id : String)
    (updatedStudent : Students) : List Students :=
  students.map (fun student =>
    if student._id == some id then spreadWithId id updatedStudent
    else student)

/-- Reducer `saveEditedStudent`: applies `updateStudentList` to both
`allstudents` and `filteredstudents`; `currentStudent` is untouched. -/
def saveEditedStudent (state : StudentState) (id : String)
    (student : Students) : StudentState :=
  { state with
    allstudents := updateStudentList state.allstudents id student
    filteredstudents := updateStudentList state.filteredstudents id student }

/-- Reducer `deleteStudent`: filters the record with the given id out of
both `allstudents` and `filteredstudents`. -/
def deleteStudent (state : StudentState) (studentId : String) :
    StudentState :=
  { state with
    allstudents :=
      state.allstudents.filter (fun student => student._id != some studentId)
    filteredstudents :=
      state.filteredstudents.filter
        (fun student => student._id != some studentId) }

/-- One dispatched action of the slice; `add` carries the string that
`uuidv4()` returned for that dispatch. -/
inductive StudentAction where
  | search (term : String)
  | select (id : String)
  | clearSelection
  | add (uuid : String) (payload : Students)
  | edit (id : String) (payload : Students)
  | remove (id : String)
deriving DecidableEq

/-- Dispatch one action.  A reducer that throws (`searchStudents` on a
record with a missing field) leaves the store state unchanged, as a Redux
dispatch whose reducer throws does. -/
def dispatch (state : StudentState) : StudentAction → StudentState
  | .search term =>
    match searchStudents state term with
    | .ok newState => newState
    | .error _ => state
  | .select id => selectedStudent state id
  | .clearSelection => clearSelectedStudent state
  | .add uuid payload => addNewStudent state uuid payload
  | .edit id payload => saveEditedStudent state id payload
  | .remove id => deleteStudent state id

/-- Dispatch a whole sequence of actions in order. -/
def dispatchAll (state : StudentState) (actions : List StudentAction) :
    StudentState :=
  actions.foldl dispatch state

/-- Spec-side matching rule, written from the words of the spec (total,
for comparison with the code): a record matches if any of `firstName`,
`lastName`, `collegeName` contains the term as a case-insensitive
substring, a missing field reading as the empty string. -/
def matchesSpec (student : Students) (term : String) : Bool :=
  jsIncludes (jsToLower (student.firstName.getD "")) (jsToLower term) ||
  jsIncludes (jsToLower (student.lastName.getD "")) (jsToLower term) ||
  jsIncludes (jsToLower (student.collegeName.getD "")) (jsToLower term)

/-- Spec-side recomputation of the filtered view from `matchesSpec`. -/
def filterSpec (students : List Students) (term : String) : List Students :=
  students.filter (fun student => matchesSpec student term)

/-! Concrete records used by witnesses and counterexamples. -/

/-- A record with all three searched fields present. -/
def annRecord : Students :=
  { _id := some "1", firstName := some "Ann", lastName := some "Lee",
    collegeName := some "X" }

/-- Store seeded with just `annRecord`. -/
def seedState : StudentState := initialState [annRecord]

/-- A record whose searched fields are all absent. -/
def idOnlyRecord : Students := { _id := some "9" }

/-! Helper lemmas about the search machinery. -/

theorem listInfixOf_nil_needle (l : List Char) : listInfixOf [] l = true := by
  induction l with
  | nil => rfl
  | cons c rest ih => simp [listInfixOf, ih, List.isPrefixOf]

theorem jsIncludes_empty_needle (s : String) :
    jsIncludes s (jsToLower "") = true := by
  have hd : (jsToLower "").data = ([] : List Char) := rfl
  simp [jsIncludes, hd, listInfixOf_nil_needle]

/-- When the `some` over the three fields returns without throwing, its
value is the total matching predicate of the spec (with the term already
lowercased). -/
theorem someFieldIncludes_ok {student : Students} {t : String} {b : Bool}
    (h : someFieldIncludes student t = .ok b) :
    b = (jsIncludes (jsToLower (student.firstName.getD "")) t ||
         jsIncludes (jsToLower (student.lastName.getD "")) t ||
         jsIncludes (jsToLower (student.collegeName.getD "")) t) := by
  unfold someFieldIncludes at h
  cases hf : student.firstName with
  | none => simp [hf] at h
  | some f =>
    simp only [hf] at h
    cases hb1 : jsIncludes (jsToLower f) t with
    | true =>
      simp [hb1] at h
      simp [hf, hb1, h]
    | false =>
      simp only [hb1, Bool.false_eq_true, if_false] at h
      cases hl : student.lastName with
      | none => simp [hl] at h
      | some l =>
        simp only [hl] at h
        cases hb2 : jsIncludes (jsToLower l) t with
        | true =>
          simp [hb2] at h
          simp [hf, hl, hb1, hb2, h]
        | false =>
          simp only [hb2, Bool.false_eq_true, if_false] at h
          cases hc : student.collegeName with
          | none => simp [hc] at h
          | some c =>
            simp only [hc] at h
            simp at h
            simp [hf, hl, hc, hb1, hb2, h]

/-- When the filter pass of `searchStudents` returns without throwing, it
returns exactly the `List.filter` of the total matching predicate. -/
theorem filterStudents_ok {students : List Students} {t : String}
    {res : List Students} (h : filterStudents students t = .ok res) :
    res = students.filter (fun student =>
      jsIncludes (jsToLower (student.firstName.getD "")) t ||
      jsIncludes (jsToLower (student.lastName.getD "")) t ||
      jsIncludes (jsToLower (student.collegeName.getD "")) t) := by
  induction students generalizing res with
  | nil =>
    simp [filterStudents] at h
    subst h
    simp
  | cons s rest ih =>
    unfold filterStudents at h
    cases hm : someFieldIncludes s t with
    | error e => simp [hm] at h
    | ok b =>
      simp only [hm] at h
      cases hr : filterStudents rest t with
      | error e => simp [hr] at h
      | ok tail =>
        simp only [hr] at h
        simp at h
        subst h
        have hb := someFieldIncludes_ok hm
        have ht := ih hr
        subst hb
        cases hcase : (jsIncludes (jsToLower (s.firstName.getD "")) t ||
            jsIncludes (jsToLower (s.lastName.getD "")) t ||
            jsIncludes (jsToLower (s.collegeName.getD "")) t) <;>
          simp [List.filter_cons, hcase, ht]

/-- Successful searches are exactly described by `filterSpec`. -/
theorem searchStudents_ok {state : StudentState} {term : String}
    {newState : StudentState} (h : searchStudents state term = .ok newState) :
    newState = { state with
      filteredstudents := filterSpec state.allstudents term } := by
  unfold searchStudents at h
  cases hf : filterStudents state.allstudents (jsToLower term) with
  | error e => simp [hf] at h
  | ok filtered =>
    simp only [hf] at h
    simp at h
    subst h
    have := filterStudents_ok hf
    simp [filterSpec, matchesSpec, this]

/-- C1: after a `search(term)` that completes (returns `.ok`), a record is
in `filteredstudents` iff it is in `allstudents` and at least one of its
`firstName`, `lastName`, `collegeName` fields contains `term` as a
case-insensitive substring; with the empty term the filtered view equals
the full collection.  (A search that throws returns `.error` and produces
no new state; see C4.) -/
theorem search_filter_correct (state newState : StudentState) (term : String)
    (h : searchStudents state term = .ok newState) :
    (∀ r, r ∈ newState.filteredstudents ↔
      r ∈ state.allstudents ∧ matchesSpec r term = true) ∧
    newState.allstudents = state.allstudents ∧
    (term = "" → newState.filteredstudents = state.allstudents) := by
  have hs := searchStudents_ok h
  subst hs
  refine ⟨?_, rfl, ?_⟩
  · intro r
    simp [filterSpec, List.mem_filter]
  · intro ht
    subst ht
    simp only [filterSpec]
    rw [List.filter_eq_self]
    intro r hr
    simp [matchesSpec, jsIncludes_empty_needle]

/-- Witness for C1: the concrete search for `an` over the seed succeeds
and the membership equivalence holds for the seed record. -/
theorem search_filter_correct_witness :
    annRecord ∈
      (StudentState.mk [annRecord] [annRecord] none).filteredstudents ↔
      annRecord ∈ seedState.allstudents ∧ matchesSpec annRecord "an" = true :=
  (search_filter_correct seedState
    (StudentState.mk [annRecord] [annRecord] none) "an" rfl).1 annRecord

/-- C4: the spec demands that a missing searched field be treated as the
empty string so that `search` never throws; the code instead evaluates
`undefined.toLowerCase()` and throws.  On a state whose only record has no
`firstName`, `searchStudents` throws for any term, even the empty one. -/
theorem search_throws_on_missing_field :
    searchStudents (initialState [idOnlyRecord]) "a" = .error () ∧
    searchStudents (initialState [idOnlyRecord]) "" = .error () :=
  ⟨rfl, rfl⟩

/-- Payload without `_id` whose record does not match the term `zz`. -/
def boPayload : Students := { firstName := some "Bo" }

/-- The state reached from `seedState` by `search("zz")`: empty filtered
view. -/
def zzState : StudentState :=
  { filteredstudents := [], allstudents := [annRecord],
    currentStudent := none }

/-- C2 counterexample: in the state reached by `search("zz")` the record
built from `boPayload` does not match the current term, yet
`addNewStudent` still appends it to `filteredstudents`, which the claim
says should stay unchanged. -/
theorem add_ignores_search_term_counterexample :
    searchStudents seedState "zz" = .ok zzState ∧
    matchesSpec (spreadWithId "u1" boPayload) "zz" = false ∧
    (addNewStudent zzState "u1" boPayload).filteredstudents ≠
      zzState.filteredstudents := by
  refine ⟨rfl, rfl, ?_⟩
  decide

/-- C2 amended: `addNewStudent` appends the record
`{ _id: uuid, ...payload }` to the end of `allstudents` and,
unconditionally, to the end of `filteredstudents` — whether or not the
record matches the term that produced the current filtered view; the
selection is untouched. -/
theorem add_appends_to_both_views (state : StudentState) (uuid : String)
    (payload : Students) :
    (addNewStudent state uuid payload).allstudents =
      state.allstudents ++ [spreadWithId uuid payload] ∧
    (addNewStudent state uuid payload).filteredstudents =
      state.filteredstudents ++ [spreadWithId uuid payload] ∧
    (addNewStudent state uuid payload).currentStudent =
      state.currentStudent :=
  ⟨rfl, rfl, rfl⟩

/-- C9: `deleteStudent` removes exactly the records carrying the given id
from both views, is a no-op on a state not containing the id in either
view, and is idempotent. -/
theorem remove_deletes_noop_idempotent (state : StudentState)
    (studentId : String) :
    (∀ r, r ∈ (deleteStudent state studentId).allstudents ↔
      r ∈ state.allstudents ∧ r._id ≠ some studentId) ∧
    (∀ r, r ∈ (deleteStudent state studentId).filteredstudents ↔
      r ∈ state.filteredstudents ∧ r._id ≠ some studentId) ∧
    ((∀ r ∈ state.allstudents, r._id ≠ some studentId) →
      (∀ r ∈ state.filteredstudents, r._id ≠ some studentId) →
      deleteStudent state studentId = state) ∧
    deleteStudent (deleteStudent state studentId) studentId =
      deleteStudent state studentId := by
  refine ⟨?_, ?_, ?_, ?_⟩
  · intro r
    simp [deleteStudent, List.mem_filter, bne_iff_ne]
  · intro r
    simp [deleteStudent, List.mem_filter, bne_iff_ne]
  · intro hall hfil
    cases state with
    | mk fil all cur =>
      simp only [deleteStudent, StudentState.mk.injEq]
      refine ⟨?_, ?_, trivial⟩
      · rw [List.filter_eq_self]
        intro a ha
        simpa [bne_iff_ne] using hfil a ha
      · rw [List.filter_eq_self]
        intro a ha
        simpa [bne_iff_ne] using hall a ha
  · simp only [deleteStudent, StudentState.mk.injEq]
    refine ⟨?_, ?_, trivial⟩ <;>
    · rw [List.filter_eq_self]
      intro a ha
      exact (List.mem_filter.mp ha).2

/-- Witness for C9: removing an absent id is a no-op on the seed state,
and removing the present id twice equals removing it once. -/
theorem remove_deletes_noop_idempotent_witness :
    deleteStudent seedState "9" = seedState ∧
    deleteStudent (deleteStudent seedState "1") "1" =
      deleteStudent seedState "1" :=
  ⟨(remove_deletes_noop_idempotent seedState "9").2.2.1 (by decide)
      (by decide),
   (remove_deletes_noop_idempotent seedState "1").2.2.2⟩

/-- The state reached from `seedState` by a successful `search("ann")`. -/
def annSearchedState : StudentState :=
  { filteredstudents := [annRecord], allstudents := [annRecord],
    currentStudent := none }

/-- Payload without `_id` whose record does not match the term `ann`. -/
def bobPayload : Students := { firstName := some "Bob" }

/-- C3 counterexample: with the term `ann` active, editing the matching
record into one that no longer matches leaves it in `filteredstudents`,
while the claimed recomputation over the updated `allstudents` would drop
it. -/
theorem edit_skips_recompute_counterexample :
    searchStudents seedState "ann" = .ok annSearchedState ∧
    (saveEditedStudent annSearchedState "1" bobPayload).filteredstudents ≠
      filterSpec
        (saveEditedStudent annSearchedState "1" bobPayload).allstudents
        "ann" := by
  refine ⟨rfl, ?_⟩
  decide

/-- `updateStudentList` preserves the id sequence when the payload carries
no `_id`. -/
theorem updateStudentList_map_id (l : List Students) (id : String)
    (payload : Students) (hp : payload._id = none) :
    (updateStudentList l id payload).map Students._id =
      l.map Students._id := by
  induction l with
  | nil => rfl
  | cons s rest ih =>
    simp only [updateStudentList, List.map_cons] at ih ⊢
    refine congrArg₂ List.cons ?_ ih
    by_cases hs : s._id = some id
    · simp [hs, spreadWithId, hp]
    · simp [hs]

/-- C3 amended: `saveEditedStudent` applies the identical replacement to
the corresponding record in `filteredstudents`, but never recomputes the
filtered view from `allstudents`: for a payload without `_id` the id
sequences of both views are unchanged, so no record enters or leaves
`filteredstudents` when the edit changes whether it matches the active
term. -/
theorem edit_updates_views_in_place (state : StudentState) (id : String)
    (payload : Students) (hp : payload._id = none) :
    (saveEditedStudent state id payload).filteredstudents =
      updateStudentList state.filteredstudents id payload ∧
    (saveEditedStudent state id payload).filteredstudents.map Students._id =
      state.filteredstudents.map Students._id ∧
    (saveEditedStudent state id payload).allstudents.map Students._id =
      state.allstudents.map Students._id :=
  ⟨rfl, updateStudentList_map_id _ _ _ hp, updateStudentList_map_id _ _ _ hp⟩

/-- Witness for the amended C3 at the concrete edit that stops matching. -/
theorem edit_updates_views_in_place_witness :
    (saveEditedStudent annSearchedState "1" bobPayload).filteredstudents.map
        Students._id =
      annSearchedState.filteredstudents.map Students._id :=
  (edit_updates_views_in_place annSearchedState "1" bobPayload rfl).2.1

/-- `updateStudentList` is the identity when no record carries the id. -/
theorem updateStudentList_not_found (l : List Students) (id : String)
    (payload : Students) (h : ∀ r ∈ l, r._id ≠ some id) :
    updateStudentList l id payload = l := by
  induction l with
  | nil => rfl
  | cons s rest ih =>
    have hs : s._id ≠ some id := h s (List.mem_cons_self s rest)
    have hrest : ∀ r ∈ rest, r._id ≠ some id :=
      fun r hr => h r (List.mem_cons_of_mem s hr)
    simp only [updateStudentList, List.map_cons] at ih ⊢
    refine congrArg₂ List.cons ?_ (ih hrest)
    simp [hs]

/-- C5: for a payload without `_id`, editing replaces the field set of
every record carrying the id wholesale with `{ _id: id, ...payload }` — a
record built from the payload alone, so every field absent from the
payload is absent afterwards — leaves all other positions untouched, and
is a complete no-op when the id occurs in neither view. -/
theorem edit_replaces_wholesale (state : StudentState) (id : String)
    (payload : Students) (hp : payload._id = none) :
    (∀ i : Nat, (saveEditedStudent state id payload).allstudents[i]? =
      (state.allstudents[i]?).map (fun r =>
        if r._id = some id then { payload with _id := some id } else r)) ∧
    ((∀ r ∈ state.allstudents, r._id ≠ some id) →
      (∀ r ∈ state.filteredstudents, r._id ≠ some id) →
      saveEditedStudent state id payload = state) := by
  constructor
  · intro i
    simp only [saveEditedStudent, updateStudentList, List.getElem?_map]
    cases hsi : state.allstudents[i]? with
    | none => rfl
    | some r =>
      by_cases hr : r._id = some id
      · simp [hr, spreadWithId, hp]
      · simp [hr]
  · intro hall hfil
    cases state with
    | mk fil all cur =>
      simp only [saveEditedStudent, StudentState.mk.injEq]
      exact ⟨updateStudentList_not_found _ _ _ hfil,
        updateStudentList_not_found _ _ _ hall, trivial⟩

/-- Witness for C5: position 0 of the concrete edit is replaced wholesale
(`lastName` and `collegeName` are gone), and editing an absent id is a
no-op. -/
theorem edit_replaces_wholesale_witness :
    ((saveEditedStudent annSearchedState "1" bobPayload).allstudents[0]? =
      (annSearchedState.allstudents[0]?).map (fun r =>
        if r._id = some "1" then { bobPayload with _id := some "1" }
        else r)) ∧
    saveEditedStudent seedState "7" bobPayload = seedState :=
  ⟨(edit_replaces_wholesale annSearchedState "1" bobPayload rfl).1 0,
   (edit_replaces_wholesale seedState "7" bobPayload rfl).2 (by decide)
      (by decide)⟩

/-- The state after `select("1")` from `annSearchedState`. -/
def selectedSeedState : StudentState :=
  { filteredstudents := [annRecord], allstudents := [annRecord],
    currentStudent := some annRecord }

/-- Payload renaming the seed record. -/
def anniePayload : Students := { firstName := some "Annie" }

/-- C7 counterexample: with `annRecord` selected, editing it leaves
`currentStudent` holding the pre-edit content, not `{ id, ...input }`. -/
theorem edit_leaves_selected_stale_counterexample :
    selectedStudent annSearchedState "1" = selectedSeedState ∧
    (saveEditedStudent selectedSeedState "1" anniePayload).currentStudent =
      some annRecord ∧
    some annRecord ≠ some { anniePayload with _id := some "1" } := by
  refine ⟨rfl, rfl, ?_⟩
  decide

/-- After `updateStudentList`, `find?` by the id returns the replacement
record, provided some record carried the id and the payload has none. -/
theorem find?_updateStudentList (l : List Students) (id : String)
    (payload : Students) (hp : payload._id = none)
    (hex : ∃ r ∈ l, r._id = some id) :
    (updateStudentList l id payload).find?
        (fun student => student._id == some id) =
      some { payload with _id := some id } := by
  induction l with
  | nil => simp at hex
  | cons s rest ih =>
    by_cases hs : s._id = some id
    · simp only [updateStudentList, List.map_cons]
      rw [List.find?_cons_of_pos]
      · simp [hs, spreadWithId, hp]
      · simp [hs, spreadWithId, hp]
    · obtain ⟨r, hr, hrid⟩ := hex
      rcases List.mem_cons.mp hr with heq | hr2
      · exact absurd (heq ▸ hrid) hs
      · have htail := ih ⟨r, hr2, hrid⟩
        simp only [updateStudentList, List.map_cons] at htail ⊢
        rw [List.find?_cons_of_neg, htail]
        simp [hs]

/-- C7 amended: `currentStudent` is an independent snapshot rather than a
live reference: `saveEditedStudent` leaves it untouched, and the edited
content `{ _id: id, ...payload }` is observed only after a further
`selectedStudent(id)` dispatch. -/
theorem edit_selected_snapshot (state : StudentState) (id : String)
    (payload : Students) (hp : payload._id = none)
    (hex : ∃ r ∈ state.allstudents, r._id = some id) :
    (saveEditedStudent state id payload).currentStudent =
      state.currentStudent ∧
    (selectedStudent (saveEditedStudent state id payload) id).currentStudent =
      some { payload with _id := some id } := by
  refine ⟨rfl, ?_⟩
  simp only [selectedStudent, saveEditedStudent]
  exact find?_updateStudentList state.allstudents id payload hp hex

/-- Witness for the amended C7 at the concrete selected state. -/
theorem edit_selected_snapshot_witness :
    (saveEditedStudent selectedSeedState "1" anniePayload).currentStudent =
      selectedSeedState.currentStudent ∧
    (selectedStudent (saveEditedStudent selectedSeedState "1" anniePayload) "1").currentStudent =
      some { anniePayload with _id := some "1" } :=
  ⟨(edit_selected_snapshot selectedSeedState "1" anniePayload rfl
      (by decide)).1,
   (edit_selected_snapshot selectedSeedState "1" anniePayload rfl
      (by decide)).2⟩

/-- One dispatch preserves the subsequence relation between the views. -/
theorem dispatch_preserves_sublist {state : StudentState}
    (h : state.filteredstudents.Sublist state.allstudents)
    (action : StudentAction) :
    (dispatch state action).filteredstudents.Sublist
      (dispatch state action).allstudents := by
  cases action with
  | search term =>
    simp only [dispatch]
    cases hs : searchStudents state term with
    | error e => exact h
    | ok newState =>
      have hok := searchStudents_ok hs
      subst hok
      exact List.filter_sublist _
  | select id => exact h
  | clearSelection => exact h
  | add uuid payload => exact h.append (List.Sublist.refl _)
  | edit id payload => exact h.map _
  | remove id => exact h.filter _

/-- C6: in every state reachable from the initial state by dispatching any
sequence of search, select, clearSelection, add, edit and remove actions,
`filteredstudents` is an order-preserving subsequence of `allstudents`
(for every seed collection). -/
theorem filtered_sublist_of_all_invariant (dummyData : List Students)
    (actions : List StudentAction) :
    (dispatchAll (initialState dummyData) actions).filteredstudents.Sublist
      (dispatchAll (initialState dummyData) actions).allstudents := by
  have general : ∀ (acts : List StudentAction) (s : StudentState),
      s.filteredstudents.Sublist s.allstudents →
      (dispatchAll s acts).filteredstudents.Sublist
        (dispatchAll s acts).allstudents := by
    intro acts
    induction acts with
    | nil => intro s hs; exact hs
    | cons a rest ih =>
      intro s hs
      exact ih (dispatch s a) (dispatch_preserves_sublist hs a)
  exact general actions (initialState dummyData) (List.Sublist.refl _)

/-- The collection after a sequence of `addNewStudent` dispatches. -/
theorem addAll_allstudents (state : StudentState)
    (adds : List (String × Students)) :
    (adds.foldl (fun s pr => addNewStudent s pr.1 pr.2) state).allstudents =
      state.allstudents ++ adds.map (fun pr => spreadWithId pr.1 pr.2) := by
  induction adds generalizing state with
  | nil => simp
  | cons pr rest ih =>
    simp only [List.foldl_cons, List.map_cons]
    rw [ih]
    simp [addNewStudent, List.append_assoc]

/-- C8: starting from a state whose id column has no duplicate, any
sequence of adds whose payloads carry no `_id`, and whose generated uuids
are fresh and pairwise distinct, keeps the id column duplicate-free.
(Freshness of uuids is the contract of `uuidv4`; they appear here as the
injected uuid arguments.) -/
theorem add_keeps_ids_distinct (state : StudentState)
    (adds : List (String × Students))
    (hpayload : ∀ pr ∈ adds, (Prod.snd pr)._id = none)
    (hnodup : (state.allstudents.map Students._id ++
      adds.map (fun pr => some pr.1)).Nodup) :
    ((adds.foldl (fun s pr => addNewStudent s pr.1 pr.2)
        state).allstudents.map Students._id).Nodup := by
  rw [addAll_allstudents, List.map_append, List.map_map]
  have hids : adds.map (Students._id ∘ fun pr => spreadWithId pr.1 pr.2) =
      adds.map (fun pr => some pr.1) := by
    apply List.map_congr_left
    intro pr hpr
    simp [spreadWithId, hpayload pr hpr]
  rw [hids]
  exact hnodup

/-- Witness for C8: two concrete adds with fresh uuids onto the seed. -/
theorem add_keeps_ids_distinct_witness :
    (([("u1", boPayload), ("u2", bobPayload)].foldl
        (fun s pr => addNewStudent s pr.1 pr.2)
        seedState).allstudents.map Students._id).Nodup :=
  add_keeps_ids_distinct seedState [("u1", boPayload), ("u2", bobPayload)]
    (by decide) (by decide)

/-- With `_id` present on the payload, the spread keeps the payload id and
changes nothing else. -/
theorem spreadWithId_of_payload_id {payload : Students} {x : String}
    (hx : payload._id = some x) (v : String) :
    spreadWithId v payload = payload := by
  cases payload
  simp_all [spreadWithId]

/-- The replacement record is in the updated list whenever some record
carried the id. -/
theorem spread_mem_updateStudentList {l : List Students} {id : String}
    (payload : Students) {r : Students} (hr : r ∈ l)
    (hrid : r._id = some id) :
    spreadWithId id payload ∈ updateStudentList l id payload := by
  induction l with
  | nil => simp at hr
  | cons s rest ih =>
    rcases List.mem_cons.mp hr with heq | hmem
    · subst heq
      simp [updateStudentList, hrid]
    · exact List.mem_cons_of_mem _ (ih hmem)

/-- C10: when the input payload itself carries an `_id`, the spread
`{ _id: ..., ...payload }` lets the payload win: `addNewStudent` stores
the payload id, discarding the generated uuid, and `saveEditedStudent`
stores a record carrying the payload id rather than the id used to locate
the record; so id immutability and uniqueness require the precondition
that inputs exclude `_id`. -/
theorem payload_id_overrides (state : StudentState) (uuid : String)
    (payload : Students) (x : String) (hx : payload._id = some x)
    (locId : String) :
    (addNewStudent state uuid payload).allstudents =
      state.allstudents ++ [payload] ∧
    (∀ r ∈ state.allstudents, r._id = some locId →
      payload ∈ (saveEditedStudent state locId payload).allstudents) := by
  constructor
  · simp [addNewStudent, spreadWithId_of_payload_id hx]
  · intro r hr hrid
    have hmem := spread_mem_updateStudentList payload hr hrid
    rwa [spreadWithId_of_payload_id hx] at hmem

/-- Payload that smuggles in the already-used id `1`. -/
def dupIdPayload : Students := { _id := some "1", firstName := some "Dup" }

/-- Witness for C10: adding `dupIdPayload` under a fresh uuid stores id
`1`, duplicating the seed id; the edit stores the payload wholesale. -/
theorem payload_id_overrides_witness :
    ((addNewStudent seedState "u9" dupIdPayload).allstudents =
      seedState.allstudents ++ [dupIdPayload]) ∧
    dupIdPayload ∈
      (saveEditedStudent seedState "1" dupIdPayload).allstudents :=
  ⟨(payload_id_overrides seedState "u9" dupIdPayload "1" rfl "1").1,
   (payload_id_overrides seedState "u9" dupIdPayload "1" rfl "1").2
     annRecord (by decide) rfl⟩
